import Mathlib

/-!
A shallow embedding of the layout engine in `src/open-epaper-gen/src/draw.rs`.

Machine integers: the Rust code works on `u32`. We model `u32` values as `Nat`
and model every arithmetic operation at its call site:

* `checked_sub` (used by `impl Sub for Bounds`) is modelled by `checked_sub`
  returning an `Option`;
* every plain `+`, `-`, `*` on `u32` is modelled with wrapping (mod 2^32)
  semantics (`wadd`, `wsub`, `wmul`), which is what a Rust release build does;
  a debug build would panic at exactly the points where these wrap, which we
  point out where it matters;
* the `as i32` casts in the stack distribution loop are modelled by `toI32`
  (reinterpretation of the low 32 bits as a signed value) and the `i32`
  subtraction by `wrapI32` of the exact integer difference.

Fonts and the `Text` view delegate to the external fontdue collaborator and are
not needed by any claim below; the `View` tree embedded here covers the views
the claims and the repository's own tests exercise (plain fixed-size test
views, spacers, the monitoring wrapper from the test suite, and both stacks).
-/

set_option maxRecDepth 100000

namespace EpaperDraw

/-- `2^32`, the modulus of `u32` arithmetic. -/
def u32Mod : Nat := 4294967296

/-- Wrapping `u32` addition (Rust release semantics for `a + b`). -/
def wadd (a b : Nat) : Nat := (a + b) % u32Mod

/-- Wrapping `u32` multiplication (Rust release semantics for `a * b`). -/
def wmul (a b : Nat) : Nat := (a * b) % u32Mod

/-- Wrapping `u32` subtraction (Rust release semantics for `a - b`). -/
def wsub (a b : Nat) : Nat := (a + (u32Mod - b % u32Mod)) % u32Mod

/-- `u32::checked_sub`: `some (a - b)` when `b ≤ a`, otherwise `none`. -/
def checked_sub (a b : Nat) : Option Nat := if b ≤ a then some (a - b) else none

/-- Reinterpret the low 32 bits of a value as a signed `i32` (the `as i32`
cast in the distribution loops). -/
def toI32 (n : Nat) : Int :=
  if n % u32Mod < 2147483648 then (n % u32Mod : Int) else (n % u32Mod : Int) - u32Mod

/-- Wrap an integer into `i32` range (Rust release semantics of `i32`
subtraction applied to the exact difference). -/
def wrapI32 (x : Int) : Int := (x + 2147483648) % u32Mod - 2147483648

/-- `SizingHint` from `draw.rs`. -/
inductive SizingHint where
  | Optimal
  | InfiniteSpace
  | ZeroSpace
deriving DecidableEq, Repr

/-- `Bounds` from `draw.rs`: a width, a height and a sizing hint. -/
structure Bounds where
  width : Nat
  height : Nat
  hint : SizingHint
deriving DecidableEq, Repr

namespace Bounds

/-- `Bounds::new`: the given dimensions with `SizingHint::Optimal`. -/
def new (width height : Nat) : Bounds := ⟨width, height, SizingHint.Optimal⟩

/-- `Bounds::width_adjusted`. -/
def width_adjusted (b : Bounds) (width : Nat) : Bounds := ⟨width, b.height, b.hint⟩

/-- `Bounds::height_adjusted`. -/
def height_adjusted (b : Bounds) (height : Nat) : Bounds := ⟨b.width, height, b.hint⟩

/-- `Bounds::zero_hinted`. -/
def zero_hinted (b : Bounds) : Bounds := ⟨b.width, b.height, SizingHint.ZeroSpace⟩

/-- `Bounds::optimally_hinted`. -/
def optimally_hinted (b : Bounds) : Bounds := ⟨b.width, b.height, SizingHint.Optimal⟩

/-- `Bounds::infinitely_hinted`. -/
def infinitely_hinted (b : Bounds) : Bounds := ⟨b.width, b.height, SizingHint.InfiniteSpace⟩

/-- `Bounds::copy_hint`: new dimensions, current hint. -/
def copy_hint (b : Bounds) (width height : Nat) : Bounds := ⟨width, height, b.hint⟩

/-- `impl Sub for Bounds`: `checked_sub(..).unwrap_or(0)` on each axis, hint
taken from the left operand. -/
def sub (a b : Bounds) : Bounds :=
  ⟨(checked_sub a.width b.width).getD 0, (checked_sub a.height b.height).getD 0, a.hint⟩

/-- `impl Add for Bounds`: component-wise sum (plain `u32` addition). -/
def add (a b : Bounds) : Bounds := ⟨wadd a.width b.width, wadd a.height b.height, a.hint⟩

/-- `impl PartialOrd for Bounds`: equal dimensions compare `Equal`; otherwise
the `u32` products `height * width` decide `Greater` versus `Less`. Never
`none`. -/
def pcmp (a b : Bounds) : Option Ordering :=
  if a.height = b.height ∧ a.width = b.width then some Ordering.eq
  else
    let area_self := wmul a.height a.width
    let area_other := wmul b.height b.width
    if area_self > area_other then some Ordering.gt else some Ordering.lt

end Bounds

/-- `Padding` from `draw.rs`. -/
structure Padding where
  left : Nat
  right : Nat
  top : Nat
  bottom : Nat
deriving DecidableEq, Repr

namespace Padding

/-- `Padding::zero`. -/
def zero : Padding := ⟨0, 0, 0, 0⟩

/-- `Padding::bounds`: width is left+right, height is top+bottom. -/
def bounds (p : Padding) : Bounds := Bounds.new (wadd p.left p.right) (wadd p.top p.bottom)

end Padding

/-- `Direction` (spacer axis) from `draw.rs`. -/
inductive Direction where
  | Horizontal
  | Vertical
deriving DecidableEq, Repr

/-- `HAlign` (cross-axis alignment of a `VStack`). -/
inductive HAlign where
  | Left
  | Center
  | Right
deriving DecidableEq, Repr

/-- `VAlign` (cross-axis alignment of an `HStack`). -/
inductive VAlign where
  | Top
  | Center
  | Bottom
deriving DecidableEq, Repr

/-- `impl View for Spacer`, `fn bounds`: collapse to `(0,0)` when zero-hinted,
otherwise take the whole suggestion on the flex axis and `0` on the other. -/
def spacerBounds (d : Direction) (sb : Bounds) : Bounds :=
  if sb.hint = SizingHint.ZeroSpace then Bounds.new 0 0
  else
    match d with
    | Direction.Vertical => sb.width_adjusted 0
    | Direction.Horizontal => sb.height_adjusted 0

/-- The flexibility score a `VStack` computes for one child inside
`placements_and_heights` (draw.rs lines 506-527), expressed over the child's
measuring function: +3 when an infinitely-hinted 999×999 probe reports height
999, +3 when a zero-hinted (0,0) probe reports height 0, +2 when the
zero-hinted height is positive but below the optimally-hinted 999×999 height. -/
def vflexScore (measure : Bounds → Bounds) : Nat :=
  let s1 := if (measure ((Bounds.new 999 999).infinitely_hinted)).height = 999 then 3 else 0
  let zero_height := (measure ((Bounds.new 0 0).zero_hinted)).height
  let s2 := if zero_height = 0 then 3 else 0
  let optimal_height := (measure ((Bounds.new 999 999).optimally_hinted)).height
  let s3 := if 0 < zero_height ∧ zero_height < optimal_height then 2 else 0
  s1 + s2 + s3

/-- The flexibility score an `HStack` computes for one child inside
`placements_and_widths` (draw.rs lines 699-720): same probes on the width. -/
def hflexScore (measure : Bounds → Bounds) : Nat :=
  let s1 := if (measure ((Bounds.new 999 999).infinitely_hinted)).width = 999 then 3 else 0
  let zero_width := (measure ((Bounds.new 0 0).zero_hinted)).width
  let s2 := if zero_width = 0 then 3 else 0
  let optimal_width := (measure ((Bounds.new 999 999).optimally_hinted)).width
  let s3 := if 0 < zero_width ∧ zero_width < optimal_width then 2 else 0
  s1 + s2 + s3

/-- One insertion step of a stable insertion sort on (score, index) pairs,
ordering by the score component only. An element is inserted before the first
element whose score is ≥ its own, so elements with equal scores keep their
original relative order — the behavior Rust's stable `sort_by` guarantees for
`flexibility.sort_by(|a, b| a.0.partial_cmp(&b.0).unwrap())`. -/
def insertFlex (x : Nat × Nat) : List (Nat × Nat) → List (Nat × Nat)
  | [] => [x]
  | y :: ys => if x.1 ≤ y.1 then x :: y :: ys else y :: insertFlex x ys

/-- Stable sort of (score, index) pairs ascending by score, modelling
`sort_by` on the flexibility vector. -/
def sortFlex : List (Nat × Nat) → List (Nat × Nat)
  | [] => []
  | x :: xs => insertFlex x (sortFlex xs)

/-- The sorted flexibility vector: scores zipped with child indices
(`.zip(0..self.views.len())`), stably sorted ascending by score. -/
def flexSorted (scores : List Nat) : List (Nat × Nat) :=
  sortFlex (scores.zip (List.range scores.length))

/-- The leftover-budget update in the distribution loops (draw.rs lines
577-581 and 770-774): compare `(leftover as i32) - (actual as i32)` with 0;
clamp to 0 when negative, otherwise plain `u32` subtraction. -/
def leftoverUpdate (leftover actual : Nat) : Nat :=
  if wrapI32 (toI32 leftover - toI32 actual) < 0 then 0 else wsub leftover actual

/-- The `VStack` distribution loop (draw.rs lines 564-582): walk the sorted
flexibility vector; at each step offer `leftover / views_left` as the height,
record the height the child actually reports, and update the leftover budget. -/
def distributeV (measures : List (Bounds → Bounds)) (sb : Bounds) :
    List (Nat × Nat) → Nat → List (Nat × Nat)
  | [], _ => []
  | (s, view_index) :: rest, leftover =>
      let views_left := ((s, view_index) :: rest).length
      let suggestion := leftover / views_left
      let m := measures.getD view_index (fun _ => Bounds.new 0 0)
      let actual := (m (sb.height_adjusted suggestion)).height
      (view_index, actual) :: distributeV measures sb rest (leftoverUpdate leftover actual)

/-- The `HStack` distribution loop (draw.rs lines 757-775): same, on widths. -/
def distributeH (measures : List (Bounds → Bounds)) (sb : Bounds) :
    List (Nat × Nat) → Nat → List (Nat × Nat)
  | [], _ => []
  | (s, view_index) :: rest, leftover =>
      let views_left := ((s, view_index) :: rest).length
      let suggestion := leftover / views_left
      let m := measures.getD view_index (fun _ => Bounds.new 0 0)
      let actual := (m (sb.width_adjusted suggestion)).width
      (view_index, actual) :: distributeH measures sb rest (leftoverUpdate leftover actual)

/-- The final placement loop shared (textually duplicated) by both stacks
(draw.rs lines 584-590 and 777-783): walk the children in original order,
look up each one's recorded size, place it at the running offset, and advance
by size + spacing. -/
def buildPlacements (temp : List (Nat × Nat)) (spacing : Nat) :
    List Nat → Nat → List (Nat × Nat × Nat)
  | [], _ => []
  | i :: is, off =>
      let size := ((temp.find? (fun h => h.1 == i)).getD (i, 0)).2
      (i, off, size) :: buildPlacements temp spacing is (wadd off (wadd size spacing))

/-- `VStack::placements_and_heights` over the children's measuring functions.
Returns (child index, main-axis offset, main-axis size) triples in original
child order. -/
def placements_and_heights (measures : List (Bounds → Bounds)) (spacing : Nat)
    (sb : Bounds) : List (Nat × Nat × Nat) :=
  let flexibility := flexSorted (measures.map vflexScore)
  let initial_from_views :=
    match sb.hint with
    | SizingHint.Optimal => (measures.map (fun m => (m sb).height)).foldl wadd 0
    | SizingHint.ZeroSpace => (measures.map (fun m => (m sb).height)).foldl wadd 0
    | SizingHint.InfiniteSpace => sb.height
  let initMin := min sb.height initial_from_views
  let spacing_height := if measures.length > 0 then wmul (measures.length - 1) spacing else 0
  let initial_height :=
    if initMin > wsub sb.height spacing_height then wsub sb.height spacing_height else initMin
  let temp := distributeV measures sb flexibility initial_height
  buildPlacements temp spacing (List.range measures.length) 0

/-- `HStack::placements_and_widths` over the children's measuring functions. -/
def placements_and_widths (measures : List (Bounds → Bounds)) (spacing : Nat)
    (sb : Bounds) : List (Nat × Nat × Nat) :=
  let flexibility := flexSorted (measures.map hflexScore)
  let initial_from_views :=
    match sb.hint with
    | SizingHint.Optimal => (measures.map (fun m => (m sb).width)).foldl wadd 0
    | SizingHint.ZeroSpace => (measures.map (fun m => (m sb).width)).foldl wadd 0
    | SizingHint.InfiniteSpace => sb.width
  let initMin := min sb.width initial_from_views
  let spacing_width := if measures.length > 0 then wmul (measures.length - 1) spacing else 0
  let initial_width :=
    if initMin > wsub sb.width spacing_width then wsub sb.width spacing_width else initMin
  let temp := distributeH measures sb flexibility initial_width
  buildPlacements temp spacing (List.range measures.length) 0

/-- `impl View for VStack`, `fn bounds`: width is the maximum child width at
the original suggestion plus left/right padding; height is the last
placement's offset plus its size plus top/bottom padding. -/
def vstackBoundsCore (measures : List (Bounds → Bounds)) (spacing : Nat)
    (pad : Padding) (sb : Bounds) : Bounds :=
  let unpadded_width := (measures.map (fun m => (m sb).width)).foldr max 0
  let width := wadd (wadd unpadded_width pad.left) pad.right
  let placement_bounds := sb.sub pad.bounds
  let placements := placements_and_heights measures spacing placement_bounds
  let last := placements.getLast?.getD (0, 0, 0)
  let total_height := wadd (wadd (wadd last.2.1 last.2.2) pad.top) pad.bottom
  Bounds.new width total_height

/-- `impl View for HStack`, `fn bounds`: the symmetric computation. -/
def hstackBoundsCore (measures : List (Bounds → Bounds)) (spacing : Nat)
    (pad : Padding) (sb : Bounds) : Bounds :=
  let unpadded_height := (measures.map (fun m => (m sb).height)).foldr max 0
  let height := wadd (wadd unpadded_height pad.top) pad.bottom
  let placement_bounds := sb.sub pad.bounds
  let placements := placements_and_widths measures spacing placement_bounds
  let last := placements.getLast?.getD (0, 0, 0)
  let total_width := wadd (wadd (wadd last.2.1 last.2.2) pad.left) pad.right
  Bounds.new total_width height

/-- The cross-axis x position `VStack::draw` computes for a child (draw.rs
lines 634-638), with `max_x = x + suggested.width - pad.left - pad.right`
inlined into the `Right` arm. -/
def vstackChildX (align : HAlign) (x sbWidth : Nat) (pad : Padding)
    (childWidth : Nat) : Nat :=
  match align with
  | HAlign.Left => wadd x pad.left
  | HAlign.Right => wsub (wsub (wsub (wadd x sbWidth) pad.left) pad.right) childWidth
  | HAlign.Center => wadd (wadd x pad.left) (wsub sbWidth childWidth / 2)

/-- The cross-axis y position `HStack::draw` computes for a child (draw.rs
lines 827-831). -/
def hstackChildY (align : VAlign) (y sbHeight : Nat) (pad : Padding)
    (childHeight : Nat) : Nat :=
  match align with
  | VAlign.Top => wadd y pad.top
  | VAlign.Bottom => wsub (wsub (wsub (wadd y sbHeight) pad.top) pad.bottom) childHeight
  | VAlign.Center => wadd (wadd y pad.top) (wsub sbHeight childHeight / 2)

mutual
/-- The tree of views the claims exercise. `testView` is the test suite's
`TestView` (reports fixed bounds, registers its id/x/y when drawn);
`monitor` is the test suite's `MonitorWrapper` (registers, then delegates).
`vstack`/`hstack` are the stack containers from `draw.rs`. -/
inductive View where
  | testView (id width height : Nat)
  | spacer (direction : Direction)
  | monitor (id : Nat) (child : View)
  | vstack (spacing : Nat) (align : HAlign) (padding : Padding) (views : ViewList)
  | hstack (spacing : Nat) (align : VAlign) (padding : Padding) (views : ViewList)

/-- The ordered child list of a stack (`Vec<Box<dyn View>>`). -/
inductive ViewList where
  | nil
  | cons (v : View) (vs : ViewList)
end

mutual
/-- The `bounds` method of the `View` trait for each embedded view:
`TestView::bounds` returns its fixed size, `Spacer::bounds` is
`spacerBounds`, `MonitorWrapper::bounds` delegates to its child, and the
stacks run `VStack::bounds` / `HStack::bounds`. -/
def viewBounds : View → Bounds → Bounds
  | View.testView _ w h, _ => Bounds.new w h
  | View.spacer d, sb => spacerBounds d sb
  | View.monitor _ c, sb => viewBounds c sb
  | View.vstack sp _ pad vs, sb => vstackBoundsCore (measuresOf vs) sp pad sb
  | View.hstack sp _ pad vs, sb => hstackBoundsCore (measuresOf vs) sp pad sb

/-- The measuring functions of a child list, in order. -/
def measuresOf : ViewList → List (Bounds → Bounds)
  | ViewList.nil => []
  | ViewList.cons v vs => (fun sb => viewBounds v sb) :: measuresOf vs
end

mutual
/-- The `draw` method of the `View` trait, observed through the test suite's
`DrawingRegister`: the result is the ordered list of `(id, x, y)`
registrations. `TestView::draw` and `MonitorWrapper::draw` register
themselves; `Spacer::draw` is a no-op; the stacks recompute placements and
draw each child at its computed position with its measured bounds. -/
def viewDraw : View → Nat → Nat → Bounds → List (Nat × Nat × Nat)
  | View.testView id _ _, x, y, _ => [(id, x, y)]
  | View.spacer _, _, _, _ => []
  | View.monitor id c, x, y, sb => (id, x, y) :: viewDraw c x y sb
  | View.vstack sp al pad vs, x, y, sb =>
      let placement_bounds := sb.sub pad.bounds
      let placements := placements_and_heights (measuresOf vs) sp placement_bounds
      drawChildrenV vs placements al pad x y sb placement_bounds
  | View.hstack sp al pad vs, x, y, sb =>
      let placement_bounds := sb.sub pad.bounds
      let placements := placements_and_widths (measuresOf vs) sp placement_bounds
      drawChildrenH vs placements al pad x y sb placement_bounds

/-- The per-child loop of `VStack::draw` (draw.rs lines 621-641): pair every
child with its placement; re-measure it at
`suggested.copy_hint(placement_bounds.width, placement.2)`; compute its x from
the alignment; draw it at `(view_x, y + pad.top + placement.1)` with the
re-measured bounds. -/
def drawChildrenV : ViewList → List (Nat × Nat × Nat) → HAlign → Padding →
    Nat → Nat → Bounds → Bounds → List (Nat × Nat × Nat)
  | ViewList.nil, _, _, _, _, _, _, _ => []
  | ViewList.cons _ _, [], _, _, _, _, _, _ => []
  | ViewList.cons v vs, pl :: pls, al, pad, x, y, sb, pb =>
      let placed_bounds := sb.copy_hint pb.width pl.2.2
      let child_bounds := viewBounds v placed_bounds
      let view_x := vstackChildX al x sb.width pad child_bounds.width
      viewDraw v view_x (wadd (wadd y pad.top) pl.2.1) child_bounds ++
        drawChildrenV vs pls al pad x y sb pb

/-- The per-child loop of `HStack::draw` (draw.rs lines 814-834). -/
def drawChildrenH : ViewList → List (Nat × Nat × Nat) → VAlign → Padding →
    Nat → Nat → Bounds → Bounds → List (Nat × Nat × Nat)
  | ViewList.nil, _, _, _, _, _, _, _ => []
  | ViewList.cons _ _, [], _, _, _, _, _, _ => []
  | ViewList.cons v vs, pl :: pls, al, pad, x, y, sb, pb =>
      let placed_bounds := sb.copy_hint pl.2.2 pb.height
      let child_bounds := viewBounds v placed_bounds
      let view_y := hstackChildY al y sb.height pad child_bounds.height
      viewDraw v (wadd (wadd x pad.left) pl.2.1) view_y child_bounds ++
        drawChildrenH vs pls al pad x y sb pb
end

/-- An `Image` element: the decoded pixel buffer (a width, a height and the
pixel at each (column, row), abstracted as a `Nat` code) plus the element's
padding. -/
structure Image where
  width : Nat
  height : Nat
  pix : Nat → Nat → Nat
  padding : Padding

/-- `Image::draw` (draw.rs lines 1054-1067), observed as the ordered list of
`put_pixel` calls `(dest x, dest y, pixel)`. Note the source computes
`pad_origin_y` from `padding.left`, not `padding.top`. -/
def Image.draw (img : Image) (x y : Nat) : List (Nat × Nat × Nat) :=
  let pad_origin_x := wadd x img.padding.left
  let pad_origin_y := wadd y img.padding.left
  (List.range img.height).flatMap (fun img_y =>
    (List.range img.width).map (fun img_x =>
      (wadd pad_origin_x img_x, wadd pad_origin_y img_y, img.pix img_x img_y)))

/-- Strict lexicographic order on (score, index) pairs: smaller score first,
original child index breaking ties. A list sorted by this order is exactly
the ascending *stable* sort of a list whose indices were strictly
increasing. -/
def flexLt (a b : Nat × Nat) : Prop := a.1 < b.1 ∨ (a.1 = b.1 ∧ a.2 < b.2)

theorem insertFlex_perm (x : Nat × Nat) (l : List (Nat × Nat)) :
    (insertFlex x l).Perm (x :: l) := by
  induction l with
  | nil => exact List.Perm.refl _
  | cons y ys ih =>
      by_cases h : x.1 ≤ y.1
      · simp [insertFlex, h]
      · simp only [insertFlex, if_neg h]
        exact (ih.cons y).trans (List.Perm.swap x y ys)

theorem sortFlex_perm (l : List (Nat × Nat)) : (sortFlex l).Perm l := by
  induction l with
  | nil => exact List.Perm.refl _
  | cons x xs ih => exact (insertFlex_perm x (sortFlex xs)).trans (ih.cons x)

theorem pairwise_insertFlex {x : Nat × Nat} {l : List (Nat × Nat)}
    (hl : l.Pairwise flexLt) (hx : ∀ y ∈ l, x.2 < y.2) :
    (insertFlex x l).Pairwise flexLt := by
  induction l with
  | nil => simp [insertFlex]
  | cons y ys ih =>
      rcases List.pairwise_cons.1 hl with ⟨hy, hys⟩
      by_cases h : x.1 ≤ y.1
      · simp only [insertFlex, if_pos h]
        refine List.pairwise_cons.2 ⟨?_, hl⟩
        intro z hz
        rcases List.mem_cons.1 hz with rfl | hz
        · have := hx z (List.mem_cons_self _ _)
          rcases Nat.lt_or_ge x.1 z.1 with h1 | h1
          · exact Or.inl h1
          · exact Or.inr ⟨Nat.le_antisymm h h1, this⟩
        · have hyz := hy z hz
          have hxz := hx z (List.mem_cons_of_mem _ hz)
          rcases hyz with h1 | ⟨h1, h2⟩
          · exact Or.inl (Nat.lt_of_le_of_lt h h1)
          · rcases Nat.lt_or_ge x.1 z.1 with h3 | h3
            · exact Or.inl h3
            · exact Or.inr ⟨Nat.le_antisymm (h1 ▸ h) h3, hxz⟩
      · simp only [insertFlex, if_neg h]
        refine List.pairwise_cons.2
          ⟨?_, ih hys (fun z hz => hx z (List.mem_cons_of_mem _ hz))⟩
        intro z hz
        rcases List.mem_cons.1 ((insertFlex_perm x ys).mem_iff.1 hz) with rfl | hz
        · exact Or.inl (Nat.lt_of_not_le h)
        · exact hy z hz

theorem pairwise_sortFlex {l : List (Nat × Nat)}
    (h : l.Pairwise (fun a b => a.2 < b.2)) : (sortFlex l).Pairwise flexLt := by
  induction l with
  | nil => simp [sortFlex]
  | cons x xs ih =>
      rcases List.pairwise_cons.1 h with ⟨hx, hxs⟩
      exact pairwise_insertFlex (ih hxs)
        (fun y hy => hx y ((sortFlex_perm xs).mem_iff.1 hy))

theorem pairwise_zip_snd {α β : Type} (R : β → β → Prop) :
    ∀ (l1 : List α) (l2 : List β), l2.Pairwise R →
      (l1.zip l2).Pairwise (fun a b => R a.2 b.2)
  | [], _, _ => by simp
  | _ :: _, [], _ => by simp
  | a :: l1, b :: l2, h => by
      rcases List.pairwise_cons.1 h with ⟨hb, h2⟩
      refine List.pairwise_cons.2 ⟨?_, pairwise_zip_snd R l1 l2 h2⟩
      intro z hz
      exact hb z.2 (List.of_mem_zip hz).2

theorem flexSorted_pairwise (scores : List Nat) :
    (flexSorted scores).Pairwise flexLt := by
  unfold flexSorted
  exact pairwise_sortFlex
    (pairwise_zip_snd (· < ·) scores (List.range scores.length)
      (List.pairwise_lt_range _))

theorem flexSorted_perm (scores : List Nat) :
    (flexSorted scores).Perm (scores.zip (List.range scores.length)) :=
  sortFlex_perm _

/-- Build a `ViewList` from a plain list. -/
def viewListOf (l : List View) : ViewList := l.foldr ViewList.cons ViewList.nil

/-- The five-child stack of `test_vstack_layouts_multiple_spacers_optimally_hinted`
and `..._infinitely_hinted`: fixed 100/75/50 px views with a vertical spacer
between each pair, spacing 0. -/
def spacersVStack : View :=
  View.vstack 0 HAlign.Left Padding.zero (viewListOf
    [View.testView 1 50 100, View.spacer Direction.Vertical,
     View.testView 2 50 75, View.spacer Direction.Vertical,
     View.testView 3 50 50])

/-- The inner stack of `test_vstack_layouts_nested_vstack`: a 50 px view, a
vertical spacer, and an 80 px view. -/
def innerNestedVStack : View :=
  View.vstack 0 HAlign.Left Padding.zero (viewListOf
    [View.testView 1 50 50, View.spacer Direction.Vertical,
     View.testView 2 80 80])

/-- The outer stack of `test_vstack_layouts_nested_vstack`: the inner stack, a
100 px inflexible view, and a monitored bare vertical spacer. -/
def outerNestedVStack : View :=
  View.vstack 0 HAlign.Left Padding.zero (viewListOf
    [innerNestedVStack, View.testView 3 100 100,
     View.monitor 4 (View.spacer Direction.Vertical)])

/-- The two-child stack of `test_vstack_draws_right_aligned_elements`. -/
def rightAlignedVStack : View :=
  View.vstack 0 HAlign.Right Padding.zero (viewListOf
    [View.testView 1 50 50, View.testView 2 75 100])

/-- The two-child stack of `test_vstack_draws_center_aligned_elements`. -/
def centerAlignedVStack : View :=
  View.vstack 0 HAlign.Center Padding.zero (viewListOf
    [View.testView 1 50 50, View.testView 2 75 100])

/-- The two-child stack of `test_hstack_draws_bottom_aligned_elements`. -/
def bottomAlignedHStack : View :=
  View.hstack 0 VAlign.Bottom Padding.zero (viewListOf
    [View.testView 1 50 50, View.testView 2 100 75])

/-- The two-child stack of `test_hstack_draws_center_aligned_elements`. -/
def centerAlignedHStack : View :=
  View.hstack 0 VAlign.Center Padding.zero (viewListOf
    [View.testView 1 50 50, View.testView 2 100 75])

/-- A 2×1 image whose padding is 5 px at the top and 0 everywhere else; the
pixel at (col, row) is the code 100 + 10*row + col. -/
def topPaddedImage : Image :=
  { width := 2, height := 1, pix := fun c r => 100 + 10 * r + c,
    padding := { left := 0, right := 0, top := 5, bottom := 0 } }

/-- **C1.** The claim says the budget subtraction of the spacing total from
the suggested main-axis size saturates at zero, so layout never panics. The
code (draw.rs line 560) subtracts with a plain unchecked `u32` subtraction:
with two children, spacing 50 and a suggested height of 20 the subtrahend 50
exceeds 20, so `20u32 - 50u32` wraps to 2^32 − 30 in a release build (and
panics in a debug build) instead of saturating to 0. Because the wrapped
value is huge, the clamp never fires: the two spacers are offered 10 px each
and sized 10/10, where a saturating budget would have collapsed them to 0. -/
theorem c1_spacing_budget_does_not_saturate :
    wsub 20 50 = 4294967266 ∧
    wsub 20 50 ≠ 0 ∧
    placements_and_heights (measuresOf (viewListOf
        [View.spacer Direction.Vertical, View.spacer Direction.Vertical])) 50
        (Bounds.mk 20 20 SizingHint.Optimal) =
      [(0, 0, 10), (1, 60, 10)] :=
  ⟨by decide, by decide, by decide⟩

/-- **C2.** The claim says `Image::draw` writes source pixel (col, row) to
`(x + padding.left + col, y + padding.top + row)`. The code (draw.rs line
1056) computes the vertical origin from `padding.left`, not `padding.top`:
for an image with left padding 0 and top padding 5 drawn at the origin, every
pixel lands at y = row + 0, not y = row + 5. -/
theorem c2_image_draw_uses_left_padding_for_y :
    topPaddedImage.draw 0 0 = [(0, 0, 100), (1, 0, 101)] ∧
    topPaddedImage.padding.left = 0 ∧
    topPaddedImage.padding.top = 5 ∧
    0 + topPaddedImage.padding.top + 0 = 5 ∧
    (topPaddedImage.draw 0 0).filter (fun p => p.2.1 == 5) = [] :=
  ⟨by decide, by decide, by decide, by decide, by decide⟩

/-- **C3.** During stack space distribution, children are processed in
ascending-flexibility order (for the 100/spacer/75/spacer/50 stack the sorted
index order is [0, 2, 4, 1, 3]); at each step the offer is the leftover
budget divided by the number of unprocessed children, the child's reported
size is recorded, and the leftover budget is reduced by it, saturating at
zero; consequently two spacers sharing 175 px of leftover receive 87 px
(processed first) and 88 px (processed second), so the final placements of
the five children are at offsets 0/100/187/262/350 with sizes
100/87/75/88/50. -/
theorem c3_greedy_distribution :
    (∀ leftover actual : Nat,
      leftover < 2147483648 → actual < 2147483648 →
      ((leftoverUpdate leftover actual : Int) =
        max 0 ((leftover : Int) - (actual : Int)))) ∧
    (flexSorted [0, 6, 0, 6, 0]).map Prod.snd = [0, 2, 4, 1, 3] ∧
    placements_and_heights (measuresOf (viewListOf
        [View.testView 1 50 100, View.spacer Direction.Vertical,
         View.testView 2 50 75, View.spacer Direction.Vertical,
         View.testView 3 50 50])) 0 (Bounds.mk 400 400 SizingHint.InfiniteSpace) =
      [(0, 0, 100), (1, 100, 87), (2, 187, 75), (3, 262, 88), (4, 350, 50)] := by
  refine ⟨?_, by decide, by decide⟩
  intro l a h1 h2
  unfold leftoverUpdate wrapI32 toI32 wsub u32Mod
  split_ifs <;> omega

/-- Witness for the hypothesis-bearing part of C3: the leftover update at the
concrete values from the two-spacer scenario (175 px left, 87 px taken). -/
theorem c3_greedy_distribution_witness :
    (175 : Nat) < 2147483648 ∧ (87 : Nat) < 2147483648 ∧
    ((leftoverUpdate 175 87 : Int) = max 0 ((175 : Int) - (87 : Int))) :=
  ⟨by decide, by decide, c3_greedy_distribution.1 175 87 (by decide) (by decide)⟩

/-- **C4.** In the 400 px InfiniteSpace-hinted vertical stack of
`test_vstack_layouts_nested_vstack`, the nested stack that contains a spacer
scores 5 — slightly less flexible than the bare spacer sibling's 6 — and the
end-to-end draw registers the four monitored elements at y offsets
0, 70, 150, 250. -/
theorem c4_nested_stack_end_to_end :
    vflexScore (fun sb => viewBounds innerNestedVStack sb) = 5 ∧
    vflexScore (fun sb =>
      viewBounds (View.monitor 4 (View.spacer Direction.Vertical)) sb) = 6 ∧
    vflexScore (fun sb => viewBounds innerNestedVStack sb) <
      vflexScore (fun sb =>
        viewBounds (View.monitor 4 (View.spacer Direction.Vertical)) sb) ∧
    viewDraw outerNestedVStack 0 0 (Bounds.mk 400 400 SizingHint.InfiniteSpace) =
      [(1, 0, 0), (2, 0, 70), (3, 0, 150), (4, 0, 250)] :=
  ⟨by decide, by decide, by decide, by decide⟩

/-- **C5.** For every stack child, the flexibility score is the sum of: 3 if
an InfiniteSpace-hinted 999×999 probe returns main-axis size exactly 999; 3
if a ZeroSpace-hinted (0,0) probe returns main-axis size 0; and 2 if the
zero-hinted main-axis result is positive and strictly smaller than the
Optimal-hinted 999×999 result (main axis: height for a VStack, width for an
HStack). The flexibility vector both stacks then build is a permutation of
the (score, child index) pairs that is sorted ascending by score with the
original index order preserved among equal scores — `flexLt` ordering, i.e. a
stable sort. -/
theorem c5_flexibility_score_and_stable_order :
    (∀ m : Bounds → Bounds,
      vflexScore m =
        (if (m (Bounds.mk 999 999 SizingHint.InfiniteSpace)).height = 999 then 3 else 0) +
        (if (m (Bounds.mk 0 0 SizingHint.ZeroSpace)).height = 0 then 3 else 0) +
        (if 0 < (m (Bounds.mk 0 0 SizingHint.ZeroSpace)).height ∧
            (m (Bounds.mk 0 0 SizingHint.ZeroSpace)).height <
              (m (Bounds.mk 999 999 SizingHint.Optimal)).height then 2 else 0) ∧
      hflexScore m =
        (if (m (Bounds.mk 999 999 SizingHint.InfiniteSpace)).width = 999 then 3 else 0) +
        (if (m (Bounds.mk 0 0 SizingHint.ZeroSpace)).width = 0 then 3 else 0) +
        (if 0 < (m (Bounds.mk 0 0 SizingHint.ZeroSpace)).width ∧
            (m (Bounds.mk 0 0 SizingHint.ZeroSpace)).width <
              (m (Bounds.mk 999 999 SizingHint.Optimal)).width then 2 else 0)) ∧
    (∀ scores : List Nat,
      (flexSorted scores).Perm (scores.zip (List.range scores.length)) ∧
      (flexSorted scores).Pairwise flexLt) :=
  ⟨fun _ => ⟨rfl, rfl⟩,
   fun scores => ⟨flexSorted_perm scores, flexSorted_pairwise scores⟩⟩

/-- **C6.** `Bounds` subtraction saturates at zero on each axis
independently: for all bounds a and b, `(a − b).width = max 0 (a.width −
b.width)` over the integers, and the same for the height, for every
combination of widths, heights and hints (the operation is total — it never
underflows or panics). -/
theorem c6_bounds_sub_saturating (a b : Bounds) :
    (((a.sub b).width : Int) = max 0 ((a.width : Int) - (b.width : Int))) ∧
    (((a.sub b).height : Int) = max 0 ((a.height : Int) - (b.height : Int))) := by
  unfold Bounds.sub checked_sub
  constructor
  · by_cases h : b.width ≤ a.width
    · simp only [if_pos h, Option.getD_some]
      omega
    · simp only [if_neg h, Option.getD_none]
      omega
  · by_cases h : b.height ≤ a.height
    · simp only [if_pos h, Option.getD_some]
      omega
    · simp only [if_neg h, Option.getD_none]
      omega

/-- **C7.** A Spacer measures to (0,0) when the suggestion is ZeroSpace-
hinted; otherwise it keeps the suggested size on its flex axis and reports 0
on the cross axis: a vertical spacer reports width 0 and the suggested
height, a horizontal spacer the suggested width and height 0. -/
theorem c7_spacer_measure (sb : Bounds) :
    (sb.hint = SizingHint.ZeroSpace →
      (spacerBounds Direction.Vertical sb).width = 0 ∧
      (spacerBounds Direction.Vertical sb).height = 0 ∧
      (spacerBounds Direction.Horizontal sb).width = 0 ∧
      (spacerBounds Direction.Horizontal sb).height = 0) ∧
    (sb.hint ≠ SizingHint.ZeroSpace →
      (spacerBounds Direction.Vertical sb).width = 0 ∧
      (spacerBounds Direction.Vertical sb).height = sb.height ∧
      (spacerBounds Direction.Horizontal sb).width = sb.width ∧
      (spacerBounds Direction.Horizontal sb).height = 0) := by
  constructor <;> intro h <;>
    simp [spacerBounds, h, Bounds.new, Bounds.width_adjusted, Bounds.height_adjusted]

/-- Witness for C7 at a concrete non-ZeroSpace suggestion. -/
theorem c7_spacer_measure_witness :
    (Bounds.mk 5 7 SizingHint.Optimal).hint ≠ SizingHint.ZeroSpace ∧
    (spacerBounds Direction.Vertical (Bounds.mk 5 7 SizingHint.Optimal)).width = 0 ∧
    (spacerBounds Direction.Vertical (Bounds.mk 5 7 SizingHint.Optimal)).height = 7 :=
  ⟨by decide,
   ((c7_spacer_measure (Bounds.mk 5 7 SizingHint.Optimal)).2 (by decide)).1,
   ((c7_spacer_measure (Bounds.mk 5 7 SizingHint.Optimal)).2 (by decide)).2.1⟩

/-- **C8.** A `VStack` or `HStack` with no children measures to (0,0) plus
its own padding, for every suggested bounds (any width, height and hint); in
particular a freshly constructed stack — zero padding — measures to exactly
width 0 and height 0. Stated for paddings whose per-axis sums stay in `u32`
range (larger sums would wrap in the `u32` additions of the source). -/
theorem c8_empty_stack_measures_padding (sp : Nat) (alv : HAlign) (alh : VAlign)
    (pad : Padding) (sb : Bounds)
    (h1 : pad.left + pad.right < u32Mod) (h2 : pad.top + pad.bottom < u32Mod) :
    viewBounds (View.vstack sp alv pad ViewList.nil) sb =
      Bounds.new (pad.left + pad.right) (pad.top + pad.bottom) ∧
    viewBounds (View.hstack sp alh pad ViewList.nil) sb =
      Bounds.new (pad.left + pad.right) (pad.top + pad.bottom) ∧
    viewBounds (View.vstack sp alv Padding.zero ViewList.nil) sb = Bounds.new 0 0 ∧
    viewBounds (View.hstack sp alh Padding.zero ViewList.nil) sb = Bounds.new 0 0 := by
  have keyV : ∀ l r t b : Nat, l + r < u32Mod → t + b < u32Mod →
      Bounds.new (wadd (wadd 0 l) r) (wadd (wadd (wadd 0 0) t) b) =
        Bounds.new (l + r) (t + b) := by
    intro l r t b hlr htb
    unfold Bounds.new wadd u32Mod
    unfold u32Mod at hlr htb
    congr 1 <;> omega
  have keyH : ∀ l r t b : Nat, l + r < u32Mod → t + b < u32Mod →
      Bounds.new (wadd (wadd (wadd 0 0) l) r) (wadd (wadd 0 t) b) =
        Bounds.new (l + r) (t + b) := by
    intro l r t b hlr htb
    unfold Bounds.new wadd u32Mod
    unfold u32Mod at hlr htb
    congr 1 <;> omega
  exact ⟨keyV pad.left pad.right pad.top pad.bottom h1 h2,
    keyH pad.left pad.right pad.top pad.bottom h1 h2,
    keyV 0 0 0 0 (by decide) (by decide),
    keyH 0 0 0 0 (by decide) (by decide)⟩

/-- Witness for C8 at a concrete padding and suggestion. -/
theorem c8_empty_stack_measures_padding_witness :
    (10 : Nat) + 5 < u32Mod ∧ (15 : Nat) + 2 < u32Mod ∧
    viewBounds (View.vstack 3 HAlign.Left (Padding.mk 10 5 15 2) ViewList.nil)
      (Bounds.mk 400 400 SizingHint.ZeroSpace) = Bounds.new 15 17 :=
  ⟨by decide, by decide,
   (c8_empty_stack_measures_padding 3 HAlign.Left VAlign.Top (Padding.mk 10 5 15 2)
     (Bounds.mk 400 400 SizingHint.ZeroSpace) (by decide) (by decide)).1⟩

/-- **C9.** During a stack's paint, a child's cross-axis position is: the
padding edge (`origin + leading padding`) when start-aligned; the far edge
(`origin + suggested cross size − both paddings`) minus the child's cross
size when end-aligned; and the padding edge plus `(suggested cross size −
child cross size) / 2`, integer division truncating toward the start, when
center-aligned. Stated for inputs in `u32` range with no underflow, and
checked end-to-end against the four alignment tests of the repository
(right: x = 450 and 425; center: x = 275 and 262; bottom: y = 450 and 425;
center: y = 275 and 262). -/
theorem c9_cross_axis_alignment :
    (∀ (x W cw : Nat) (pad : Padding), x + pad.left < u32Mod →
      vstackChildX HAlign.Left x W pad cw = x + pad.left) ∧
    (∀ (x W cw : Nat) (pad : Padding),
      pad.left + pad.right + cw ≤ x + W → x + W < u32Mod →
      vstackChildX HAlign.Right x W pad cw = x + W - pad.left - pad.right - cw) ∧
    (∀ (x W cw : Nat) (pad : Padding), cw ≤ W → W < u32Mod →
      x + pad.left + (W - cw) / 2 < u32Mod →
      vstackChildX HAlign.Center x W pad cw = x + pad.left + (W - cw) / 2) ∧
    (∀ (y H ch : Nat) (pad : Padding), y + pad.top < u32Mod →
      hstackChildY VAlign.Top y H pad ch = y + pad.top) ∧
    (∀ (y H ch : Nat) (pad : Padding),
      pad.top + pad.bottom + ch ≤ y + H → y + H < u32Mod →
      hstackChildY VAlign.Bottom y H pad ch = y + H - pad.top - pad.bottom - ch) ∧
    (∀ (y H ch : Nat) (pad : Padding), ch ≤ H → H < u32Mod →
      y + pad.top + (H - ch) / 2 < u32Mod →
      hstackChildY VAlign.Center y H pad ch = y + pad.top + (H - ch) / 2) ∧
    viewDraw rightAlignedVStack 100 100 (Bounds.mk 400 400 SizingHint.Optimal) =
      [(1, 450, 100), (2, 425, 150)] ∧
    viewDraw centerAlignedVStack 100 100 (Bounds.mk 400 400 SizingHint.Optimal) =
      [(1, 275, 100), (2, 262, 150)] ∧
    viewDraw bottomAlignedHStack 100 100 (Bounds.mk 400 400 SizingHint.Optimal) =
      [(1, 100, 450), (2, 150, 425)] ∧
    viewDraw centerAlignedHStack 100 100 (Bounds.mk 400 400 SizingHint.Optimal) =
      [(1, 100, 275), (2, 150, 262)] := by
  refine ⟨?_, ?_, ?_, ?_, ?_, ?_, by decide, by decide, by decide, by decide⟩
  · intro x W cw pad h
    show wadd x pad.left = x + pad.left
    unfold wadd u32Mod
    unfold u32Mod at h
    omega
  · intro x W cw pad h1 h2
    show wsub (wsub (wsub (wadd x W) pad.left) pad.right) cw =
      x + W - pad.left - pad.right - cw
    unfold wadd wsub u32Mod
    unfold u32Mod at h2
    omega
  · intro x W cw pad h1 h2 h3
    show wadd (wadd x pad.left) (wsub W cw / 2) = x + pad.left + (W - cw) / 2
    unfold wadd wsub u32Mod
    unfold u32Mod at h2 h3
    omega
  · intro y H ch pad h
    show wadd y pad.top = y + pad.top
    unfold wadd u32Mod
    unfold u32Mod at h
    omega
  · intro y H ch pad h1 h2
    show wsub (wsub (wsub (wadd y H) pad.top) pad.bottom) ch =
      y + H - pad.top - pad.bottom - ch
    unfold wadd wsub u32Mod
    unfold u32Mod at h2
    omega
  · intro y H ch pad h1 h2 h3
    show wadd (wadd y pad.top) (wsub H ch / 2) = y + pad.top + (H - ch) / 2
    unfold wadd wsub u32Mod
    unfold u32Mod at h2 h3
    omega

/-- Witness for C9: the center-aligned x position at the concrete values of
the repository's center-alignment test (x = 100, suggested width 400, zero
padding, child width 50 gives 275). -/
theorem c9_cross_axis_alignment_witness :
    (50 : Nat) ≤ 400 ∧ (400 : Nat) < u32Mod ∧
    (100 : Nat) + Padding.zero.left + (400 - 50) / 2 < u32Mod ∧
    vstackChildX HAlign.Center 100 400 Padding.zero 50 =
      100 + Padding.zero.left + (400 - 50) / 2 :=
  ⟨by decide, by decide, by decide,
   c9_cross_axis_alignment.2.2.1 100 400 50 Padding.zero (by decide) (by decide)
     (by decide)⟩

/-- **C10.** `Bounds` comparison never returns `none`: it returns `Equal`
exactly when widths and heights both match; otherwise it returns `Greater`
exactly when the (u32) product of the dimensions of the left operand exceeds
that of the right, and `Less` otherwise. For in-`u32`-range areas this is the
plain product comparison. Two bounds of equal area but different dimensions
— 2×3 and 3×2 — therefore each compare strictly `Less` than the other while
being unequal, so the ordering is not antisymmetric. -/
theorem c10_bounds_pcmp_total_by_area :
    (∀ a b : Bounds,
      (Bounds.pcmp a b).isSome = true ∧
      (Bounds.pcmp a b = some Ordering.eq ↔
        a.width = b.width ∧ a.height = b.height) ∧
      (¬(a.width = b.width ∧ a.height = b.height) →
        ((Bounds.pcmp a b = some Ordering.gt ↔
            wmul b.height b.width < wmul a.height a.width) ∧
         (¬ wmul b.height b.width < wmul a.height a.width →
            Bounds.pcmp a b = some Ordering.lt))) ∧
      (a.width * a.height < u32Mod → b.width * b.height < u32Mod →
        ¬(a.width = b.width ∧ a.height = b.height) →
        (Bounds.pcmp a b = some Ordering.gt ↔
          b.width * b.height < a.width * a.height))) ∧
    Bounds.pcmp (Bounds.new 2 3) (Bounds.new 3 2) = some Ordering.lt ∧
    Bounds.pcmp (Bounds.new 3 2) (Bounds.new 2 3) = some Ordering.lt ∧
    (Bounds.new 2 3 = Bounds.new 3 2) = False := by
  refine ⟨fun a b => ?_, by decide, by decide, by decide⟩
  by_cases h : a.height = b.height ∧ a.width = b.width
  · have hpc : Bounds.pcmp a b = some Ordering.eq := by
      unfold Bounds.pcmp
      rw [if_pos h]
    refine ⟨by rw [hpc]; rfl, ?_, ?_, ?_⟩
    · rw [hpc]
      simp [h.1, h.2]
    · intro hc
      exact absurd ⟨h.2, h.1⟩ hc
    · intro _ _ hc
      exact absurd ⟨h.2, h.1⟩ hc
  · by_cases harea : wmul b.height b.width < wmul a.height a.width
    · have hpc : Bounds.pcmp a b = some Ordering.gt := by
        unfold Bounds.pcmp
        rw [if_neg h]
        show (if wmul b.height b.width < wmul a.height a.width
          then some Ordering.gt else some Ordering.lt) = some Ordering.gt
        rw [if_pos harea]
      refine ⟨by rw [hpc]; rfl, ?_, ?_, ?_⟩
      · constructor
        · intro hc
          rw [hpc] at hc
          exact absurd hc (by decide)
        · intro hc
          exact absurd ⟨hc.2, hc.1⟩ h
      · intro _
        exact ⟨⟨fun _ => harea, fun _ => hpc⟩, fun hc => absurd harea hc⟩
      · intro ha hb _
        constructor
        · intro _
          unfold wmul u32Mod at harea
          unfold u32Mod at ha hb
          rw [Nat.mul_comm a.height a.width, Nat.mul_comm b.height b.width] at harea
          rw [Nat.mod_eq_of_lt ha, Nat.mod_eq_of_lt hb] at harea
          exact harea
        · intro _
          exact hpc
    · have hpc : Bounds.pcmp a b = some Ordering.lt := by
        unfold Bounds.pcmp
        rw [if_neg h]
        show (if wmul b.height b.width < wmul a.height a.width
          then some Ordering.gt else some Ordering.lt) = some Ordering.lt
        rw [if_neg harea]
      refine ⟨by rw [hpc]; rfl, ?_, ?_, ?_⟩
      · constructor
        · intro hc
          rw [hpc] at hc
          exact absurd hc (by decide)
        · intro hc
          exact absurd ⟨hc.2, hc.1⟩ h
      · intro _
        refine ⟨⟨fun hc => ?_, fun hc => absurd hc harea⟩, fun _ => hpc⟩
        rw [hpc] at hc
        exact absurd hc (by decide)
      · intro ha hb _
        constructor
        · intro hc
          rw [hpc] at hc
          exact absurd hc (by decide)
        · intro hw
          unfold wmul u32Mod at harea
          unfold u32Mod at ha hb
          rw [Nat.mul_comm a.height a.width, Nat.mul_comm b.height b.width] at harea
          rw [Nat.mod_eq_of_lt ha, Nat.mod_eq_of_lt hb] at harea
          exact absurd hw harea

/-- Witness for C10 at the concrete pair from the claim (2×3 versus 3×2,
equal areas, different dimensions). -/
theorem c10_bounds_pcmp_total_by_area_witness :
    ((Bounds.new 2 3).width * (Bounds.new 2 3).height < u32Mod) ∧
    ((Bounds.new 3 2).width * (Bounds.new 3 2).height < u32Mod) ∧
    ¬((Bounds.new 2 3).width = (Bounds.new 3 2).width ∧
      (Bounds.new 2 3).height = (Bounds.new 3 2).height) ∧
    (Bounds.pcmp (Bounds.new 2 3) (Bounds.new 3 2) = some Ordering.gt ↔
      (Bounds.new 3 2).width * (Bounds.new 3 2).height <
        (Bounds.new 2 3).width * (Bounds.new 2 3).height) :=
  ⟨by decide, by decide, by decide,
   (c10_bounds_pcmp_total_by_area.1 (Bounds.new 2 3) (Bounds.new 3 2)).2.2.2
     (by decide) (by decide) (by decide)⟩

end EpaperDraw
